import Mathlib

/-
Verification of the geometric toolpath engine of the laserengraver
extension (sources: laserengraver_geometry.py, laserengraver_gcode.py,
laserengraver_orientation.py, laserengraver.py).

Modelling conventions:
- Python floats are modelled as exact rationals (ℚ); the spec's tolerance
  constants (1e-6, 1e-12, 0.01, 0.1) are exact rationals here.
- Comparisons the source makes on square roots (`mag() < 1e-6`,
  `svg_length < 1e-6`, `chord_length < 0.01`, `|cross(unit u, unit v)| < 1e-6`,
  `max(d1,d2) < 0.1`) are embedded by the algebraically equivalent squared
  comparisons (both sides nonnegative), so every definition stays exact and
  executable over ℚ.  Each such rewrite is noted at its definition.
- Fallible operations return Option.
-/

namespace LaserEng

/-- 2D point / vector, mirroring class `P` and the `[x, y]` lists of the
Python sources. -/
structure Pt where
  x : ℚ
  y : ℚ
deriving DecidableEq, Repr

/-- One node of a cubic super path: `[handle_in, point, handle_out]`,
the `sp1` / `sp2` triples of laserengraver_geometry.py. -/
structure Sp where
  hIn : Pt
  pt : Pt
  hOut : Pt
deriving DecidableEq, Repr

/-- Cubic coefficients returned by `bezier_parameterize`.
Python's name `by` is a Lean keyword, so that field is spelled `byy`. -/
structure Coeffs where
  ax : ℚ
  ay : ℚ
  bx : ℚ
  byy : ℚ
  cx : ℚ
  cy : ℚ
  dx : ℚ
  dy : ℚ
deriving DecidableEq, Repr

/-- `bezier_parameterize` (laserengraver_geometry.py lines 67-88):
coefficients of x(t) = ax t^3 + bx t^2 + cx t + dx (and same for y),
derived from the four control points. -/
def bezier_parameterize (p0 p1 p2 p3 : Pt) : Coeffs :=
  let cx := 3 * (p1.x - p0.x)
  let bx := 3 * (p2.x - p1.x) - cx
  let ax := p3.x - p0.x - cx - bx
  let cy := 3 * (p1.y - p0.y)
  let byy := 3 * (p2.y - p1.y) - cy
  let ay := p3.y - p0.y - cy - byy
  ⟨ax, ay, bx, byy, cx, cy, p0.x, p0.y⟩

/-- `csp_parameterize` (lines 91-97): the bezier of a segment is
`[sp1[1], sp1[2], sp2[0], sp2[1]]`. -/
def csp_parameterize (sp1 sp2 : Sp) : Coeffs :=
  bezier_parameterize sp1.pt sp1.hOut sp2.hIn sp2.pt

/-- `csp_at_t` (lines 100-107): evaluate the segment's cubic polynomial. -/
def csp_at_t (sp1 sp2 : Sp) (t : ℚ) : Pt :=
  let c := csp_parameterize sp1 sp2
  ⟨c.ax * t ^ 3 + c.bx * t ^ 2 + c.cx * t + c.dx,
   c.ay * t ^ 3 + c.byy * t ^ 2 + c.cy * t + c.dy⟩

/-- `csp_split` (lines 110-136): de Casteljau subdivision at t, returning
`(sp_left, sp_mid, sp_right)`. -/
def csp_split (sp1 sp2 : Sp) (t : ℚ) : Sp × Sp × Sp :=
  let p0 := sp1.pt
  let p1 := sp1.hOut
  let p2 := sp2.hIn
  let p3 := sp2.pt
  let p01 : Pt := ⟨p0.x + (p1.x - p0.x) * t, p0.y + (p1.y - p0.y) * t⟩
  let p12 : Pt := ⟨p1.x + (p2.x - p1.x) * t, p1.y + (p2.y - p1.y) * t⟩
  let p23 : Pt := ⟨p2.x + (p3.x - p2.x) * t, p2.y + (p3.y - p2.y) * t⟩
  let p012 : Pt := ⟨p01.x + (p12.x - p01.x) * t, p01.y + (p12.y - p01.y) * t⟩
  let p123 : Pt := ⟨p12.x + (p23.x - p12.x) * t, p12.y + (p23.y - p12.y) * t⟩
  let p0123 : Pt := ⟨p012.x + (p123.x - p012.x) * t, p012.y + (p123.y - p012.y) * t⟩
  (⟨sp1.hIn, sp1.pt, p01⟩, ⟨p012, p0123, p123⟩, ⟨p23, sp2.pt, sp2.hOut⟩)

/-- Biarc/line primitive: the `{'type': 'line', ...}` / `{'type': 'arc', ...}`
dicts produced by the geometry module.  `end` is a Lean keyword, so the
end point is named `stop`. -/
inductive Prim where
  | line (start stop : Pt)
  | arc (start stop center : Pt) (angle : ℚ)
deriving DecidableEq, Repr

/-- Squared magnitude of a vector (`P.mag()` squared). -/
def magSq (v : Pt) : ℚ := v.x ^ 2 + v.y ^ 2

/-- z-component of the 2D cross product (`cross`). -/
def crossP (a b : Pt) : ℚ := a.x * b.y - a.y * b.x

/-- `fit_biarc` (laserengraver_geometry.py lines 284-326).
The source tests `T0.mag() < 1e-6`, `T3.mag() < 1e-6` and, after
normalizing, `|T0.x*T3.y - T0.y*T3.x| < 1e-6`.  Those are embedded in the
algebraically equivalent squared forms `magSq T < 1/10^12` and
`crossP T0 T3 ^ 2 < 1/10^12 * magSq T0 * magSq T3` (the cross product of
the unit tangents is `crossP T0 T3 / (|T0| * |T3|)`), keeping every
comparison exact over ℚ.  On success the join point is
`P1 = P0 + (P3 - P0) * 0.5` and each returned arc carries
`center = (start + end) / 2` and `angle = 0.0`, exactly as in the source. -/
def fit_biarc (sp1 sp2 : Sp) : Option (List Prim) :=
  let P0 := sp1.pt
  let P3 := sp2.pt
  let T0 : Pt := ⟨sp1.hOut.x - P0.x, sp1.hOut.y - P0.y⟩
  let T3 : Pt := ⟨sp2.pt.x - sp2.hIn.x, sp2.pt.y - sp2.hIn.y⟩
  if magSq T0 < 1 / 10 ^ 12 ∨ magSq T3 < 1 / 10 ^ 12 then none
  else if crossP T0 T3 ^ 2 < 1 / 10 ^ 12 * magSq T0 * magSq T3 then none
  else
    let V : Pt := ⟨P3.x - P0.x, P3.y - P0.y⟩
    let P1 : Pt := ⟨P0.x + V.x * (1 / 2), P0.y + V.y * (1 / 2)⟩
    some [Prim.arc P0 P1 ⟨(P0.x + P1.x) / 2, (P0.y + P1.y) / 2⟩ 0,
          Prim.arc P1 P3 ⟨(P1.x + P3.x) / 2, (P1.y + P3.y) / 2⟩ 0]

/-- A circle centered at `center` passing through `p` is tangent at `p`
to a line of direction `dir` iff `dir` is perpendicular to the radius
vector `p - center`.  The condition is invariant under positive scaling
of `dir`, so the unnormalized tangent can be supplied. -/
def arcTangentAt (center p dir : Pt) : Prop :=
  dir.x * (p.x - center.x) + dir.y * (p.y - center.y) = 0

/-- `split_and_approximate`, the inner recursion of `biarc_approximation`
(lines 230-281).  The source's `chord_length < 0.01` and
`max(d1, d2) < 0.1` with `d_i = |cross_i| / chord_length` are embedded as
the equivalent squared tests `chordSq < 1/10000` and
`c_i ^ 2 < chordSq / 100`. -/
def split_and_approximate (maxd : ℕ) (sp1 sp2 : Sp) (depth : ℕ) : List Prim :=
  if _h : maxd ≤ depth then [Prim.line sp1.pt sp2.pt]
  else
    let p0 := sp1.pt
    let p1 := sp1.hOut
    let p2 := sp2.hIn
    let p3 := sp2.pt
    let chordSq := (p3.x - p0.x) ^ 2 + (p3.y - p0.y) ^ 2
    if chordSq < 1 / 10000 then [Prim.line p0 p3]
    else
      let c1 := (p1.y - p0.y) * (p3.x - p0.x) - (p1.x - p0.x) * (p3.y - p0.y)
      let c2 := (p2.y - p0.y) * (p3.x - p0.x) - (p2.x - p0.x) * (p3.y - p0.y)
      if c1 ^ 2 < chordSq / 100 ∧ c2 ^ 2 < chordSq / 100 then [Prim.line p0 p3]
      else
        match fit_biarc sp1 sp2 with
        | some result => result
        | none =>
          let s := csp_split sp1 sp2 (1 / 2)
          split_and_approximate maxd s.1 s.2.1 (depth + 1) ++
            split_and_approximate maxd s.2.1 s.2.2 (depth + 1)
termination_by maxd - depth
decreasing_by
  all_goals omega

/-- `biarc_approximation` (lines 230-281): start the recursion at depth 0. -/
def biarc_approximation (sp1 sp2 : Sp) (maxd : ℕ := 4) : List Prim :=
  split_and_approximate maxd sp1 sp2 0

/-- One coordinate/parameter field of a motion command (`X10.0000`,
`Y...`, `I...`, `J...`, `F...`).  Fields carry exact rational values;
the 4-decimal fixed-point string formatting of the source is
serialization and is not modelled. -/
inductive Fld where
  | X : ℚ → Fld
  | Y : ℚ → Fld
  | I : ℚ → Fld
  | J : ℚ → Fld
  | F : ℚ → Fld
deriving DecidableEq, Repr

/-- One emitted command line: the command word (`G0`, `G1`, `G02`, `G03`,
`M03`, `M05`) and its fields, in emission order. -/
structure Cmd where
  code : String
  parts : List Fld
deriving DecidableEq, Repr

/-- Curve mode: `(options.curve_mode or "polyline").strip().lower()` is
compared against "biarc"; every other value takes the polyline branch,
so the dispatch is two-valued. -/
inductive Mode where
  | polyline
  | biarc
deriving DecidableEq, Repr

/-- Commands for one cubic segment inside `_path_to_gcode`
(laserengraver.py lines 319-353).  Biarc mode maps each approximation
primitive to a command: lines become `G1 X Y F`; arcs become
`G02`/`G03 X Y I J` with `G02` iff `angle < 0`, `I = (center.x-start.x)/ppm`
and `J = -((center.y-start.y)/ppm)` (J negated because the output frame
flips Y).  Polyline mode samples `t = s/n` for `s = 1..n` (written here
as `(s+1)/n` for `s = 0..n-1` over `List.range n`) and emits `G1 X Y F`.
All output coordinates go through `x ↦ x/px_per_mm`,
`y ↦ (page_height_px - y)/px_per_mm`. -/
def segment_cmds (ppm H feed : ℚ) (mode : Mode) (nEff maxDepth : ℕ)
    (sp1 sp2 : Sp) : List Cmd :=
  match mode with
  | Mode.biarc =>
    (biarc_approximation sp1 sp2 maxDepth).map (fun pr =>
      match pr with
      | Prim.line _ e =>
        ⟨"G1", [Fld.X (e.x / ppm), Fld.Y ((H - e.y) / ppm), Fld.F feed]⟩
      | Prim.arc s e c ang =>
        ⟨if ang < 0 then "G02" else "G03",
         [Fld.X (e.x / ppm), Fld.Y ((H - e.y) / ppm),
          Fld.I ((c.x - s.x) / ppm), Fld.J (-((c.y - s.y) / ppm))]⟩)
  | Mode.polyline =>
    (List.range nEff).map (fun (s : ℕ) =>
      let t : ℚ := ((s : ℚ) + 1) / (nEff : ℚ)
      let p := csp_at_t sp1 sp2 t
      ⟨"G1", [Fld.X (p.x / ppm), Fld.Y ((H - p.y) / ppm), Fld.F feed]⟩)

/-- The `for i in range(1, len(subpath))` loop of `_path_to_gcode`:
commands of consecutive anchor pairs, concatenated in order. -/
def pair_cmds (ppm H feed : ℚ) (mode : Mode) (nEff maxDepth : ℕ) :
    Sp → List Sp → List Cmd
  | _, [] => []
  | prev, sp :: rest =>
    segment_cmds ppm H feed mode nEff maxDepth prev sp ++
      pair_cmds ppm H feed mode nEff maxDepth sp rest

/-- One subpath of `_path_to_gcode` (lines 307-354): subpaths with fewer
than 2 anchors are skipped; otherwise a rapid move to the (output-mapped)
start anchor, `M03`, the per-segment commands, and `M05`. -/
def subpath_cmds (ppm H feed : ℚ) (mode : Mode) (nEff maxDepth : ℕ) :
    List Sp → List Cmd
  | [] => []
  | sp0 :: rest =>
    if rest.isEmpty then []
    else
      ⟨"G0", [Fld.X (sp0.pt.x / ppm), Fld.Y ((H - sp0.pt.y) / ppm)]⟩ ::
      ⟨"M03", []⟩ ::
      (pair_cmds ppm H feed mode nEff maxDepth sp0 rest ++ [⟨"M05", []⟩])

/-- `_path_to_gcode` (laserengraver.py lines 294-356) at the motion
command level.  The effective polyline sample count is
`max(2, polyline_segments)` (line 305); subpath command lists are
concatenated in document order. -/
def path_to_gcode (ppm H : ℚ) (mode : Mode) (polySegs : ℤ) (maxDepth : ℕ)
    (feed : ℚ) (csp : List (List Sp)) : List Cmd :=
  let nEff : ℕ := (max 2 polySegs).toNat
  (csp.map (subpath_cmds ppm H feed mode nEff maxDepth)).flatten

/-- Coordinate tracker of `GCodeGenerator` (`current_x`/`current_y`,
both initialized to `None`). -/
structure GState where
  current_x : Option ℚ
  current_y : Option ℚ
deriving DecidableEq, Repr

/-- `GCodeGenerator.move_to` (laserengraver_gcode.py lines 27-51): emits
a `G0`/`G1` command, including each axis field only when the stored
coordinate is `None` or differs from the target by more than 1e-6; the
stored coordinate is updated exactly when the field is emitted. -/
def move_to (st : GState) (x y : ℚ) (rapid : Bool) : Cmd × GState :=
  let code := if rapid then "G0" else "G1"
  let xr : List Fld × Option ℚ :=
    match st.current_x with
    | none => ([Fld.X x], some x)
    | some c => if 1 / 10 ^ 6 < |x - c| then ([Fld.X x], some x) else ([], some c)
  let yr : List Fld × Option ℚ :=
    match st.current_y with
    | none => ([Fld.Y y], some y)
    | some c => if 1 / 10 ^ 6 < |y - c| then ([Fld.Y y], some y) else ([], some c)
  (⟨code, xr.1 ++ yr.1⟩, ⟨xr.2, yr.2⟩)

/-- One orientation correspondence — a drawing-space (SVG) position and
the machine-space (G-code) triple parsed from the point's text label —
as produced by `_parse_point_group` (laserengraver_orientation.py). -/
structure OPoint where
  svg : Pt
  gx : ℚ
  gy : ℚ
  gz : ℚ
deriving DecidableEq, Repr

/-- A calibration: the parsed points of one orientation group.
`_parse_orientation_group` only ever produces lists of 2 or 3 points. -/
abbrev Calibration := List OPoint

/-- inkex `Transform` (external dependency, modelled from the inkex 1.x
library): the SVG matrix `[[a, c, e], [b, d, f]]`, applied to a column
vector as `x' = a x + c y + e`, `y' = b x + d y + f`. -/
structure Affine where
  a : ℚ
  b : ℚ
  c : ℚ
  d : ℚ
  e : ℚ
  f : ℚ
deriving DecidableEq, Repr

/-- Matrix product of two SVG transforms (inkex `Transform.__matmul__`):
`(m * n).apply p = m.apply (n.apply p)`. -/
def mulA (m n : Affine) : Affine :=
  ⟨m.a * n.a + m.c * n.b, m.b * n.a + m.d * n.b,
   m.a * n.c + m.c * n.d, m.b * n.c + m.d * n.d,
   m.a * n.e + m.c * n.f + m.e, m.b * n.e + m.d * n.f + m.f⟩

/-- inkex `Transform.apply_to_point`. -/
def applyA (m : Affine) (p : Pt) : Pt :=
  ⟨m.a * p.x + m.c * p.y + m.e, m.b * p.x + m.d * p.y + m.f⟩

/-- Translation matrix (inkex `Transform(translate=(tx, ty))`). -/
def translateA (tx ty : ℚ) : Affine := ⟨1, 0, 0, 1, tx, ty⟩

/-- The product `scale(s) * rotate(θ)` as a single matrix
`[[s cos θ, -s sin θ], [s sin θ, s cos θ]]`, parameterized by
`cr = s cos θ` and `sr = s sin θ`. -/
def scaleRotA (cr sr : ℚ) : Affine := ⟨cr, sr, -sr, cr, 0, 0⟩

/-- The ancestor walk of `get_transform_for_layer` (lines 217-223).
`chain` lists, queried layer first, each layer's attached calibrations —
the `orientation_points` entry for that layer, `[]` when the layer is
absent from the dict (states reached through `find_orientation_points`
never store an empty entry).  The walk returns the first present layer's
first calibration (`orientation_points[current][0]`). -/
def findPoints : List (List Calibration) → Option Calibration
  | [] => none
  | e :: rest =>
    match e with
    | [] => findPoints rest
    | cal :: _ => some cal

/-- Squared distance between the first two drawing-space points of a
calibration (0 for shorter lists). -/
def svgDistSq : Calibration → ℚ
  | p1 :: p2 :: _ => (p2.svg.x - p1.svg.x) ^ 2 + (p2.svg.y - p1.svg.y) ^ 2
  | _ => 0

/-- `OrientationManager.get_transform_for_layer`
(laserengraver_orientation.py lines 207-263) on a fresh manager (empty
memo cache), as a function of the queried layer's ancestor chain of
calibrations.  Exact embedding notes:
- the source's `svg_length < 1e-6` with `svg_length = sqrt(sdx^2+sdy^2)`
  is embedded as the equivalent `sdx^2 + sdy^2 < 1/10^12`;
- the source builds (via inkex, whose `add_translate`/`add_scale`/
  `add_rotate` right-multiply, `self @= other`) the matrix product
  `translate(-svg1) * scale(s) * rotate(rotation) * translate(gcode1)`,
  with `s = gcode_length/svg_length` and
  `rotation = atan2(gdy,gdx) - atan2(sdy,sdx)`.  Its `scale*rotate`
  block `[[s cos r, -s sin r], [s sin r, s cos r]]` equals exactly
  `[[dot, -cross], [cross, dot]] / (sdx^2 + sdy^2)` with
  `dot = gdx*sdx + gdy*sdy`, `cross = gdy*sdx - gdx*sdy` (expand
  `cos(a-b)`, `sin(a-b)`), so the whole transform is rational and is
  embedded without square roots or trigonometry. -/
def get_transform_for_layer (chain : List (List Calibration)) : Option Affine :=
  match findPoints chain with
  | none => none
  | some points =>
    match points with
    | p1 :: p2 :: _ =>
      let sdx := p2.svg.x - p1.svg.x
      let sdy := p2.svg.y - p1.svg.y
      let gdx := p2.gx - p1.gx
      let gdy := p2.gy - p1.gy
      let sLsq := sdx ^ 2 + sdy ^ 2
      if sLsq < 1 / 10 ^ 12 then none
      else
        let dotp := gdx * sdx + gdy * sdy
        let crossp := gdy * sdx - gdx * sdy
        some (mulA (mulA (translateA (-p1.svg.x) (-p1.svg.y))
                (scaleRotA (dotp / sLsq) (crossp / sLsq)))
              (translateA p1.gx p1.gy))
    | _ => none

/-- The transform composition stated by the claim, written from the
spec's words for comparison: apply order translate by `-drawing1`, scale
uniformly, rotate, translate by `machine1`.  `cr`/`sr` are
`scale*cos rotation` / `scale*sin rotation` (uniform scaling commutes
with rotation, so the pair determines both). -/
def spec_transform_apply (d1 m1 : Pt) (cr sr : ℚ) (p : Pt) : Pt :=
  let q : Pt := ⟨p.x - d1.x, p.y - d1.y⟩
  let r : Pt := ⟨cr * q.x - sr * q.y, sr * q.x + cr * q.y⟩
  ⟨r.x + m1.x, r.y + m1.y⟩

end LaserEng

namespace LaserEng

/-- C5: for every cubic Bezier segment with control points P0..P3, the
derived coefficients satisfy d = P0 and a + b + c + d = P3, hence
evaluation at t = 0 yields exactly P0 and at t = 1 yields exactly P3
(endpoint interpolation, exact over ℚ). -/
theorem c5_endpoint_interpolation (sp1 sp2 : Sp) :
    (csp_parameterize sp1 sp2).dx = sp1.pt.x ∧
    (csp_parameterize sp1 sp2).dy = sp1.pt.y ∧
    (csp_parameterize sp1 sp2).ax + (csp_parameterize sp1 sp2).bx +
      (csp_parameterize sp1 sp2).cx + (csp_parameterize sp1 sp2).dx = sp2.pt.x ∧
    (csp_parameterize sp1 sp2).ay + (csp_parameterize sp1 sp2).byy +
      (csp_parameterize sp1 sp2).cy + (csp_parameterize sp1 sp2).dy = sp2.pt.y ∧
    csp_at_t sp1 sp2 0 = sp1.pt ∧
    csp_at_t sp1 sp2 1 = sp2.pt := by
  obtain ⟨h1, ⟨q1x, q1y⟩, ⟨o1x, o1y⟩⟩ := sp1
  obtain ⟨⟨h2x, h2y⟩, ⟨q2x, q2y⟩, o2⟩ := sp2
  refine ⟨rfl, rfl,
    by simp only [csp_parameterize, bezier_parameterize]; ring,
    by simp only [csp_parameterize, bezier_parameterize]; ring, ?_, ?_⟩ <;>
  · simp only [csp_at_t, csp_parameterize, bezier_parameterize, Pt.mk.injEq]
    constructor <;> ring

/-- C6: de Casteljau splitting at t produces sub-segments such that the
left one evaluated at u equals the original at t*u, and the right one at
u equals the original at t + (1-t)*u (subdivision fidelity, exact). -/
theorem c6_split_fidelity (sp1 sp2 : Sp) (t u : ℚ)
    (ht0 : 0 ≤ t) (ht1 : t ≤ 1) (hu0 : 0 ≤ u) (hu1 : u ≤ 1) :
    csp_at_t (csp_split sp1 sp2 t).1 (csp_split sp1 sp2 t).2.1 u =
      csp_at_t sp1 sp2 (t * u) ∧
    csp_at_t (csp_split sp1 sp2 t).2.1 (csp_split sp1 sp2 t).2.2 u =
      csp_at_t sp1 sp2 (t + (1 - t) * u) := by
  simp only [csp_at_t, csp_parameterize, bezier_parameterize, csp_split, Pt.mk.injEq]
  exact ⟨⟨by ring, by ring⟩, ⟨by ring, by ring⟩⟩

/-- Witness for C6 at a concrete segment with t = 1/2, u = 1/3. -/
theorem c6_split_fidelity_witness :
    ((0:ℚ) ≤ 1/2 ∧ (1:ℚ)/2 ≤ 1 ∧ (0:ℚ) ≤ 1/3 ∧ (1:ℚ)/3 ≤ 1) ∧
    (csp_at_t (csp_split ⟨⟨0,0⟩,⟨0,0⟩,⟨1,2⟩⟩ ⟨⟨3,-1⟩,⟨4,0⟩,⟨4,0⟩⟩ (1/2)).1
        (csp_split ⟨⟨0,0⟩,⟨0,0⟩,⟨1,2⟩⟩ ⟨⟨3,-1⟩,⟨4,0⟩,⟨4,0⟩⟩ (1/2)).2.1 (1/3) =
      csp_at_t ⟨⟨0,0⟩,⟨0,0⟩,⟨1,2⟩⟩ ⟨⟨3,-1⟩,⟨4,0⟩,⟨4,0⟩⟩ (1/2 * (1/3)) ∧
    csp_at_t (csp_split ⟨⟨0,0⟩,⟨0,0⟩,⟨1,2⟩⟩ ⟨⟨3,-1⟩,⟨4,0⟩,⟨4,0⟩⟩ (1/2)).2.1
        (csp_split ⟨⟨0,0⟩,⟨0,0⟩,⟨1,2⟩⟩ ⟨⟨3,-1⟩,⟨4,0⟩,⟨4,0⟩⟩ (1/2)).2.2 (1/3) =
      csp_at_t ⟨⟨0,0⟩,⟨0,0⟩,⟨1,2⟩⟩ ⟨⟨3,-1⟩,⟨4,0⟩,⟨4,0⟩⟩ (1/2 + (1 - 1/2) * (1/3))) :=
  ⟨by norm_num,
   c6_split_fidelity ⟨⟨0,0⟩,⟨0,0⟩,⟨1,2⟩⟩ ⟨⟨3,-1⟩,⟨4,0⟩,⟨4,0⟩⟩ (1/2) (1/3)
     (by norm_num) (by norm_num) (by norm_num) (by norm_num)⟩

/-- C1 counterexample: at the segment with P0=(0,0), ctrl1=(1,1),
ctrl2=(2,-1), P3=(2,0) the fit succeeds (tangents (1,1) and (0,1) have
magnitude well above 1e-6 and are not parallel), yet the first returned
arc (start (0,0), end (1,0), center (1/2,0), angle 0) is not tangent to
the start tangent direction (1,1) at P0: the radius P0 - center = (-1/2,0)
is not perpendicular to it.  So the claim that the first arc is tangent
to T0 at P0 is false. -/
theorem c1_counterexample :
    fit_biarc ⟨⟨0,0⟩, ⟨0,0⟩, ⟨1,1⟩⟩ ⟨⟨2,-1⟩, ⟨2,0⟩, ⟨0,0⟩⟩ =
      some [Prim.arc ⟨0,0⟩ ⟨1,0⟩ ⟨1/2,0⟩ 0, Prim.arc ⟨1,0⟩ ⟨2,0⟩ ⟨3/2,0⟩ 0] ∧
    ¬ arcTangentAt ⟨1/2,0⟩ ⟨0,0⟩ ⟨1,1⟩ := by
  constructor
  · norm_num [fit_biarc, magSq, crossP]
  · unfold arcTangentAt
    norm_num

/-- C1 amended: whenever the biarc fit succeeds, it returns exactly two
arc primitives sharing the chord midpoint `(P0+P3)/2` as join point (a
point on the chord), each carrying its center — the midpoint of that
arc's own start and end points — and a signed sweep angle of exactly 0;
tangency to the segment's end tangents is not guaranteed. -/
theorem c1_amended_fit_structure (sp1 sp2 : Sp) (r : List Prim)
    (h : fit_biarc sp1 sp2 = some r) :
    r = [Prim.arc sp1.pt ⟨(sp1.pt.x + sp2.pt.x) / 2, (sp1.pt.y + sp2.pt.y) / 2⟩
           ⟨(3 * sp1.pt.x + sp2.pt.x) / 4, (3 * sp1.pt.y + sp2.pt.y) / 4⟩ 0,
         Prim.arc ⟨(sp1.pt.x + sp2.pt.x) / 2, (sp1.pt.y + sp2.pt.y) / 2⟩ sp2.pt
           ⟨(sp1.pt.x + 3 * sp2.pt.x) / 4, (sp1.pt.y + 3 * sp2.pt.y) / 4⟩ 0] := by
  unfold fit_biarc at h
  dsimp only at h
  split at h
  · exact Option.noConfusion h
  · split at h
    · exact Option.noConfusion h
    · simp only [Option.some.injEq] at h
      subst h
      simp only [List.cons.injEq, Prim.arc.injEq, Pt.mk.injEq, and_true, true_and]
      norm_num
      and_intros <;> ring

/-- Witness for C1 amended at the counterexample segment. -/
theorem c1_amended_witness :
    fit_biarc ⟨⟨0,0⟩, ⟨0,0⟩, ⟨1,1⟩⟩ ⟨⟨2,-1⟩, ⟨2,0⟩, ⟨0,0⟩⟩ =
      some [Prim.arc ⟨0,0⟩ ⟨1,0⟩ ⟨1/2,0⟩ 0, Prim.arc ⟨1,0⟩ ⟨2,0⟩ ⟨3/2,0⟩ 0] ∧
    [Prim.arc (⟨0,0⟩ : Pt) ⟨1,0⟩ ⟨1/2,0⟩ 0, Prim.arc ⟨1,0⟩ ⟨2,0⟩ ⟨3/2,0⟩ 0] =
      [Prim.arc (⟨0,0⟩ : Pt) ⟨(0 + 2) / 2, (0 + 0) / 2⟩
         ⟨(3 * 0 + 2) / 4, (3 * 0 + 0) / 4⟩ 0,
       Prim.arc ⟨(0 + 2) / 2, (0 + 0) / 2⟩ ⟨2,0⟩
         ⟨(0 + 3 * 2) / 4, (0 + 3 * 0) / 4⟩ 0] :=
  ⟨by norm_num [fit_biarc, magSq, crossP],
   c1_amended_fit_structure ⟨⟨0,0⟩, ⟨0,0⟩, ⟨1,1⟩⟩ ⟨⟨2,-1⟩, ⟨2,0⟩, ⟨0,0⟩⟩ _
     (by norm_num [fit_biarc, magSq, crossP])⟩

/-- C4: the biarc approximation never recurses deeper than `max_depth`:
the branch taken when `depth ≥ max_depth` emits a single Line from
segment start to segment end and stops, and for `max_depth = 0` every
segment reduces to exactly one Line primitive.  (Termination for every
`max_depth` is inherent: `split_and_approximate` is a total function,
with recursion measure `max_depth - depth` decreasing by one per
subdivision.) -/
theorem c4_depth_bound (sp1 sp2 : Sp) (maxd depth : ℕ) (h : maxd ≤ depth) :
    split_and_approximate maxd sp1 sp2 depth = [Prim.line sp1.pt sp2.pt] ∧
    biarc_approximation sp1 sp2 0 = [Prim.line sp1.pt sp2.pt] := by
  constructor
  · rw [split_and_approximate]
    simp [h]
  · show split_and_approximate 0 sp1 sp2 0 = _
    rw [split_and_approximate]
    simp

/-- Witness for C4 with `max_depth = 2`, `depth = 3` at a concrete segment. -/
theorem c4_depth_bound_witness :
    2 ≤ 3 ∧
    (split_and_approximate 2 ⟨⟨0,0⟩,⟨0,0⟩,⟨0,1⟩⟩ ⟨⟨5,1⟩,⟨5,0⟩,⟨5,0⟩⟩ 3 =
       [Prim.line ⟨0,0⟩ ⟨5,0⟩] ∧
     biarc_approximation ⟨⟨0,0⟩,⟨0,0⟩,⟨0,1⟩⟩ ⟨⟨5,1⟩,⟨5,0⟩,⟨5,0⟩⟩ 0 =
       [Prim.line ⟨0,0⟩ ⟨5,0⟩]) :=
  ⟨by decide, c4_depth_bound ⟨⟨0,0⟩,⟨0,0⟩,⟨0,1⟩⟩ ⟨⟨5,1⟩,⟨5,0⟩,⟨5,0⟩⟩ 2 3 (by decide)⟩

/-- The k-th entry of a map over `List.range`. -/
lemma getElem?_map_range {α : Type} (g : ℕ → α) {n k : ℕ} (hk : k < n) :
    ((List.range n).map g)[k]? = some (g k) := by
  rw [List.getElem?_map, List.getElem?_range hk]
  rfl

/-- C7: in polyline mode with sample count n ≥ 2, the flattener emits
for a segment exactly n linear-move commands, the k-th (0-based) being a
G1 to the output image of `evaluate(segment, (k+1)/n)` at the configured
feed; the segment start (t = 0) is not re-emitted. -/
theorem c7_polyline_samples (ppm H feed : ℚ) (maxDepth : ℕ) (sp1 sp2 : Sp)
    (n : ℕ) (hn : 2 ≤ n) (k : ℕ) (hk : k < n) :
    (segment_cmds ppm H feed Mode.polyline n maxDepth sp1 sp2).length = n ∧
    (segment_cmds ppm H feed Mode.polyline n maxDepth sp1 sp2)[k]? =
      some ⟨"G1",
        [Fld.X ((csp_at_t sp1 sp2 (((k : ℚ) + 1) / (n : ℚ))).x / ppm),
         Fld.Y ((H - (csp_at_t sp1 sp2 (((k : ℚ) + 1) / (n : ℚ))).y) / ppm),
         Fld.F feed]⟩ := by
  constructor
  · simp [segment_cmds]
  · exact getElem?_map_range _ hk

/-- Witness for C7 with n = 4, k = 3 at a concrete segment. -/
theorem c7_polyline_samples_witness :
    (2 ≤ 4 ∧ 3 < 4) ∧
    ((segment_cmds 1 0 30 Mode.polyline 4 4 ⟨⟨0,0⟩,⟨0,0⟩,⟨0,3⟩⟩
        ⟨⟨6,3⟩,⟨6,0⟩,⟨6,0⟩⟩).length = 4 ∧
     (segment_cmds 1 0 30 Mode.polyline 4 4 ⟨⟨0,0⟩,⟨0,0⟩,⟨0,3⟩⟩
        ⟨⟨6,3⟩,⟨6,0⟩,⟨6,0⟩⟩)[(3 : ℕ)]? =
       some ⟨"G1",
         [Fld.X ((csp_at_t ⟨⟨0,0⟩,⟨0,0⟩,⟨0,3⟩⟩ ⟨⟨6,3⟩,⟨6,0⟩,⟨6,0⟩⟩
             ((((3 : ℕ) : ℚ) + 1) / ((4 : ℕ) : ℚ))).x / 1),
          Fld.Y ((0 - (csp_at_t ⟨⟨0,0⟩,⟨0,0⟩,⟨0,3⟩⟩ ⟨⟨6,3⟩,⟨6,0⟩,⟨6,0⟩⟩
             ((((3 : ℕ) : ℚ) + 1) / ((4 : ℕ) : ℚ))).y) / 1),
          Fld.F 30]⟩) :=
  ⟨⟨by decide, by decide⟩,
   c7_polyline_samples 1 0 30 4 ⟨⟨0,0⟩,⟨0,0⟩,⟨0,3⟩⟩ ⟨⟨6,3⟩,⟨6,0⟩,⟨6,0⟩⟩ 4
     (by decide) 3 (by decide)⟩

/-- C8 counterexample: with configured sample count 1, the source clamps
the effective count to `max(2, 1) = 2` (laserengraver.py line 305), so
the straight subpath from (0,0) to (10,0) yields TWO linear moves (to
(5,0) then (10,0)), not the single move to (10,0) the claim states; the
emitted sequence is not the claimed four-command sequence. -/
theorem c8_counterexample :
    path_to_gcode 1 0 Mode.polyline 1 4 30
        [[⟨⟨0,0⟩,⟨0,0⟩,⟨0,0⟩⟩, ⟨⟨10,0⟩,⟨10,0⟩,⟨10,0⟩⟩]] ≠
      [⟨"G0", [Fld.X 0, Fld.Y 0]⟩, ⟨"M03", []⟩,
       ⟨"G1", [Fld.X 10, Fld.Y 0, Fld.F 30]⟩, ⟨"M05", []⟩] := by
  have h2 : ((max 2 (1 : ℤ)).toNat) = 2 := rfl
  have h3 : (2 : ℤ).toNat = 2 := rfl
  have heq : path_to_gcode 1 0 Mode.polyline 1 4 30
      [[⟨⟨0,0⟩,⟨0,0⟩,⟨0,0⟩⟩, ⟨⟨10,0⟩,⟨10,0⟩,⟨10,0⟩⟩]] =
      [⟨"G0", [Fld.X 0, Fld.Y 0]⟩, ⟨"M03", []⟩,
       ⟨"G1", [Fld.X 5, Fld.Y 0, Fld.F 30]⟩,
       ⟨"G1", [Fld.X 10, Fld.Y 0, Fld.F 30]⟩, ⟨"M05", []⟩] := by
    norm_num [path_to_gcode, h2, subpath_cmds, pair_cmds, segment_cmds,
      List.range_succ, List.range_zero, h3, csp_at_t, csp_parameterize,
      bezier_parameterize]
  rw [heq]
  simp

/-- C8 amended: a single straight two-anchor subpath from (0,0) to
(10,0) in polyline mode with feed 30 and configured sample count 1
(clamped to the effective minimum 2) produces exactly the five-command
sequence: rapid move to (0,0), tool-on, linear move to (5,0) at feed 30,
linear move to (10,0) at feed 30, tool-off — no other motion commands. -/
theorem c8_amended_output :
    path_to_gcode 1 0 Mode.polyline 1 4 30
        [[⟨⟨0,0⟩,⟨0,0⟩,⟨0,0⟩⟩, ⟨⟨10,0⟩,⟨10,0⟩,⟨10,0⟩⟩]] =
      [⟨"G0", [Fld.X 0, Fld.Y 0]⟩, ⟨"M03", []⟩,
       ⟨"G1", [Fld.X 5, Fld.Y 0, Fld.F 30]⟩,
       ⟨"G1", [Fld.X 10, Fld.Y 0, Fld.F 30]⟩, ⟨"M05", []⟩] := by
  have h2 : ((max 2 (1 : ℤ)).toNat) = 2 := rfl
  have h3 : (2 : ℤ).toNat = 2 := rfl
  norm_num [path_to_gcode, h2, h3, subpath_cmds, pair_cmds, segment_cmds,
    List.range_succ, List.range_zero, csp_at_t, csp_parameterize,
    bezier_parameterize]

/-- C9 counterexample: in the output actually produced by the toolpath
emitter `_path_to_gcode` (which formats commands directly and never
calls `GCodeGenerator.move_to`), two consecutive linear moves with the
same Y both carry the Y field: commands 2 and 3 (0-based) of this run
are `G1 X5 Y0 F30` and `G1 X10 Y0 F30` — Y is unchanged (|0-0| ≤ 1e-6)
yet `Y0` is emitted again, so no axis field is ever omitted from the
emitter's motion commands. -/
theorem c9_counterexample :
    (path_to_gcode 1 0 Mode.polyline 1 4 30
        [[⟨⟨0,0⟩,⟨0,0⟩,⟨0,0⟩⟩, ⟨⟨10,0⟩,⟨10,0⟩,⟨10,0⟩⟩]])[2]? =
      some ⟨"G1", [Fld.X 5, Fld.Y 0, Fld.F 30]⟩ ∧
    (path_to_gcode 1 0 Mode.polyline 1 4 30
        [[⟨⟨0,0⟩,⟨0,0⟩,⟨0,0⟩⟩, ⟨⟨10,0⟩,⟨10,0⟩,⟨10,0⟩⟩]])[3]? =
      some ⟨"G1", [Fld.X 10, Fld.Y 0, Fld.F 30]⟩ := by
  have h2 : ((max 2 (1 : ℤ)).toNat) = 2 := rfl
  have h3 : (2 : ℤ).toNat = 2 := rfl
  constructor <;>
  · norm_num [path_to_gcode, h2, h3, subpath_cmds, pair_cmds, segment_cmds,
      List.range_succ, List.range_zero, csp_at_t, csp_parameterize,
      bezier_parameterize]

/-- C9 amended: axis-field deduplication is implemented in
`GCodeGenerator.move_to` (laserengraver_gcode.py, a generator the
emission path never invokes): starting from a fresh tracker, a second
consecutive move to the same Y (within 1e-6) with a different X (beyond
1e-6) emits only the X field, while the tracker still holds a position —
the X is advanced to the new value and the Y keeps the previous value
(which is within 1e-6 of the target). -/
theorem c9_move_to_dedup (x1 y1 x2 y2 : ℚ) (r1 r2 : Bool)
    (hx : 1 / 10 ^ 6 < |x2 - x1|) (hy : ¬ 1 / 10 ^ 6 < |y2 - y1|) :
    (move_to ⟨none, none⟩ x1 y1 r1).1.parts = [Fld.X x1, Fld.Y y1] ∧
    (move_to (move_to ⟨none, none⟩ x1 y1 r1).2 x2 y2 r2).1.parts =
      [Fld.X x2] ∧
    (move_to (move_to ⟨none, none⟩ x1 y1 r1).2 x2 y2 r2).2 =
      ⟨some x2, some y1⟩ := by
  have hx' : ((10 : ℚ) ^ 6)⁻¹ < |x2 - x1| := by rwa [one_div] at hx
  have hy' : ¬ ((10 : ℚ) ^ 6)⁻¹ < |y2 - y1| := by rwa [one_div] at hy
  refine ⟨rfl, ?_, ?_⟩ <;> simp [move_to, hx', hy']

/-- Witness for C9 amended: moves to (0,0) then (10,0). -/
theorem c9_move_to_dedup_witness :
    ((1 : ℚ) / 10 ^ 6 < |(10 : ℚ) - 0| ∧ ¬ (1 : ℚ) / 10 ^ 6 < |(0 : ℚ) - 0|) ∧
    ((move_to ⟨none, none⟩ 0 0 true).1.parts = [Fld.X 0, Fld.Y 0] ∧
     (move_to (move_to ⟨none, none⟩ 0 0 true).2 10 0 false).1.parts =
       [Fld.X 10] ∧
     (move_to (move_to ⟨none, none⟩ 0 0 true).2 10 0 false).2 =
       ⟨some 10, some 0⟩) :=
  ⟨⟨by norm_num, by norm_num⟩,
   c9_move_to_dedup 0 0 10 0 true false (by norm_num) (by norm_num)⟩

/-- C2 (code bug): the source's comment (laserengraver_orientation.py
line 255, "translate to origin, scale, rotate, translate back") and the
claim both intend the application order: translate by -drawing1, scale,
rotate, translate by machine1.  But inkex's `add_translate`/`add_scale`/
`add_rotate` right-multiply, so the built matrix applies `translate by
machine1` FIRST and `translate by -drawing1` LAST.  With calibration
drawing1=(10,0), drawing2=(110,0), machine1=(0,0), machine2=(50,0)
(scale 1/2, rotation 0) the code's transform maps drawing1=(10,0) to
(-5,0), while the claimed composition maps it to machine1=(0,0).  The
claim's own zero-origin example (drawing1 = machine1 = (0,0)) is
unaffected by the ordering bug and does hold, as the last two conjuncts
show. -/
theorem c2_transform_order_bug :
    get_transform_for_layer [[[⟨⟨10,0⟩,0,0,0⟩, ⟨⟨110,0⟩,50,0,0⟩]]] =
      some ⟨1/2, 0, 0, 1/2, -10, 0⟩ ∧
    applyA ⟨1/2, 0, 0, 1/2, -10, 0⟩ ⟨10, 0⟩ = ⟨-5, 0⟩ ∧
    spec_transform_apply ⟨10,0⟩ ⟨0,0⟩ (1/2) 0 ⟨10,0⟩ = ⟨0,0⟩ ∧
    get_transform_for_layer [[[⟨⟨0,0⟩,0,0,0⟩, ⟨⟨100,0⟩,50,0,0⟩]]] =
      some ⟨1/2, 0, 0, 1/2, 0, 0⟩ ∧
    applyA ⟨1/2, 0, 0, 1/2, 0, 0⟩ ⟨100, 0⟩ = ⟨50, 0⟩ := by
  norm_num [get_transform_for_layer, findPoints, mulA, translateA, scaleRotA,
    applyA, spec_transform_apply]

/-- The ancestor walk finds nothing iff every layer of the chain has no
attached calibration. -/
lemma findPoints_eq_none (chain : List (List Calibration)) :
    findPoints chain = none ↔ ∀ e ∈ chain, e = [] := by
  induction chain with
  | nil => simp [findPoints]
  | cons e rest ih =>
    cases e with
    | nil => simp [findPoints, ih]
    | cons cal es => simp [findPoints]

/-- The calibration found by the ancestor walk is attached to some layer
of the chain. -/
lemma findPoints_mem (chain : List (List Calibration)) (ps : Calibration)
    (h : findPoints chain = some ps) : ∃ e ∈ chain, ps ∈ e := by
  induction chain with
  | nil => simp [findPoints] at h
  | cons e rest ih =>
    cases e with
    | nil =>
      simp only [findPoints] at h
      obtain ⟨e', he', hps⟩ := ih h
      exact ⟨e', List.mem_cons_of_mem _ he', hps⟩
    | cons cal es =>
      simp only [findPoints, Option.some.injEq] at h
      exact ⟨cal :: es, List.mem_cons_self _ _,
        by rw [← h]; exact List.mem_cons_self _ _⟩

/-- C3: under the reachable-state invariant that every stored calibration
has at least two points (as `_parse_orientation_group` guarantees), the
calibration lookup returns "no transform" (an absent Option value, never
an exception) exactly when either the two drawing-space reference points
of the applicable calibration — found on the queried layer or inherited
from the nearest ancestor in the chain — coincide within 1e-6 (i.e.
squared distance below 1e-12), or no calibration with at least two
points is attached anywhere in the chain; no identity fallback is ever
produced. -/
theorem c3_no_transform_iff (chain : List (List Calibration))
    (h : ∀ e ∈ chain, ∀ cal ∈ e, 2 ≤ cal.length) :
    get_transform_for_layer chain = none ↔
      ((∃ ps, findPoints chain = some ps ∧ svgDistSq ps < 1 / 10 ^ 12) ∨
       ∀ e ∈ chain, ∀ cal ∈ e, cal.length < 2) := by
  cases hf : findPoints chain with
  | none =>
    have hall : ∀ e ∈ chain, e = [] := (findPoints_eq_none chain).mp hf
    apply iff_of_true
    · simp [get_transform_for_layer, hf]
    · right
      intro e he cal hcal
      rw [hall e he] at hcal
      exact absurd hcal (List.not_mem_nil cal)
  | some ps =>
    obtain ⟨e, he, hpe⟩ := findPoints_mem chain ps hf
    have hlen : 2 ≤ ps.length := h e he ps hpe
    cases ps with
    | nil => simp at hlen
    | cons p1 ps' =>
      cases ps' with
      | nil => simp at hlen
      | cons p2 rest =>
        have hkey : get_transform_for_layer chain =
            if svgDistSq (p1 :: p2 :: rest) < 1 / 10 ^ 12 then none
            else some (mulA (mulA (translateA (-p1.svg.x) (-p1.svg.y))
                (scaleRotA
                  (((p2.gx - p1.gx) * (p2.svg.x - p1.svg.x) +
                    (p2.gy - p1.gy) * (p2.svg.y - p1.svg.y)) /
                      svgDistSq (p1 :: p2 :: rest))
                  (((p2.gy - p1.gy) * (p2.svg.x - p1.svg.x) -
                    (p2.gx - p1.gx) * (p2.svg.y - p1.svg.y)) /
                      svgDistSq (p1 :: p2 :: rest))))
              (translateA p1.gx p1.gy)) := by
          simp only [get_transform_for_layer, hf, svgDistSq]
        rw [hkey]
        by_cases hdeg : svgDistSq (p1 :: p2 :: rest) < 1 / 10 ^ 12
        · rw [if_pos hdeg]
          exact iff_of_true rfl (Or.inl ⟨p1 :: p2 :: rest, rfl, hdeg⟩)
        · rw [if_neg hdeg]
          apply iff_of_false (by simp)
          rintro (⟨ps', hps', hd⟩ | hshort)
          · rw [← Option.some.inj hps'] at hd
            exact hdeg hd
          · have hlt := hshort e he _ hpe
            simp only [List.length_cons] at hlt
            omega

/-- Witness for C3 with a single-layer chain holding one two-point
calibration whose drawing-space points coincide. -/
theorem c3_no_transform_iff_witness :
    (∀ e ∈ ([[[⟨⟨0,0⟩,0,0,0⟩, ⟨⟨0,0⟩,100,0,0⟩]]] :
        List (List Calibration)), ∀ cal ∈ e, 2 ≤ cal.length) ∧
    (get_transform_for_layer [[[⟨⟨0,0⟩,0,0,0⟩, ⟨⟨0,0⟩,100,0,0⟩]]] = none ↔
      ((∃ ps, findPoints [[[⟨⟨0,0⟩,0,0,0⟩, ⟨⟨0,0⟩,100,0,0⟩]]] = some ps ∧
          svgDistSq ps < 1 / 10 ^ 12) ∨
       ∀ e ∈ ([[[⟨⟨0,0⟩,0,0,0⟩, ⟨⟨0,0⟩,100,0,0⟩]]] :
           List (List Calibration)), ∀ cal ∈ e, cal.length < 2)) :=
  ⟨by simp, c3_no_transform_iff _ (by simp)⟩

/-- Every primitive of a successful biarc fit is an arc whose angle is
exactly 0 and whose center is the midpoint of its own start and end. -/
lemma fit_biarc_arcs (sp1 sp2 : Sp) (r : List Prim)
    (h : fit_biarc sp1 sp2 = some r) :
    ∀ p ∈ r, ∃ a b, p = Prim.arc a b ⟨(a.x + b.x) / 2, (a.y + b.y) / 2⟩ 0 := by
  unfold fit_biarc at h
  dsimp only at h
  split at h
  · exact Option.noConfusion h
  · split at h
    · exact Option.noConfusion h
    · simp only [Option.some.injEq] at h
      subst h
      intro p hp
      rcases List.mem_cons.mp hp with rfl | hp2
      · exact ⟨_, _, rfl⟩
      · rw [List.mem_singleton.mp hp2]
        exact ⟨_, _, rfl⟩

/-- Every primitive emitted by the biarc recursion is a line or an arc
of angle exactly 0 (lines come from the three fallbacks, arcs only from
`fit_biarc`). -/
lemma split_and_approximate_shape (maxd : ℕ) :
    ∀ fuel sp1 sp2 depth, maxd ≤ depth + fuel →
      ∀ p ∈ split_and_approximate maxd sp1 sp2 depth,
        (∃ a b, p = Prim.line a b) ∨ ∃ a b c, p = Prim.arc a b c 0 := by
  intro fuel
  induction fuel with
  | zero =>
    intro sp1 sp2 depth hle p hp
    rw [split_and_approximate] at hp
    rw [dif_pos (by omega : maxd ≤ depth)] at hp
    rw [List.mem_singleton.mp hp]
    exact Or.inl ⟨_, _, rfl⟩
  | succ n ih =>
    intro sp1 sp2 depth hle p hp
    rw [split_and_approximate] at hp
    split at hp
    · rw [List.mem_singleton.mp hp]
      exact Or.inl ⟨_, _, rfl⟩
    · dsimp only at hp
      split at hp
      · rw [List.mem_singleton.mp hp]
        exact Or.inl ⟨_, _, rfl⟩
      · split at hp
        · rw [List.mem_singleton.mp hp]
          exact Or.inl ⟨_, _, rfl⟩
        · split at hp
          next r hfit =>
            obtain ⟨a, b, hab⟩ := fit_biarc_arcs sp1 sp2 r hfit p hp
            exact Or.inr ⟨_, _, _, hab⟩
          next hfit =>
            rcases List.mem_append.mp hp with hp1 | hp1
            · exact ih _ _ _ (by omega) p hp1
            · exact ih _ _ _ (by omega) p hp1

/-- In biarc mode every segment command is a G1 or a G03. -/
lemma segment_cmds_biarc_code (ppm H feed : ℚ) (nEff maxDepth : ℕ)
    (sp1 sp2 : Sp) :
    ∀ c ∈ segment_cmds ppm H feed Mode.biarc nEff maxDepth sp1 sp2,
      c.code = "G1" ∨ c.code = "G03" := by
  intro c hc
  simp only [segment_cmds, List.mem_map] at hc
  obtain ⟨p, hp, rfl⟩ := hc
  have hshape := split_and_approximate_shape maxDepth maxDepth sp1 sp2 0
    (by omega) p (by simpa [biarc_approximation] using hp)
  rcases hshape with ⟨a, b, rfl⟩ | ⟨a, b, cc, rfl⟩
  · exact Or.inl rfl
  · right
    show (if (0 : ℚ) < 0 then "G02" else "G03") = "G03"
    rw [if_neg (lt_irrefl (0 : ℚ))]

/-- The segment loop in biarc mode never produces a G02. -/
lemma pair_cmds_biarc_code (ppm H feed : ℚ) (nEff maxDepth : ℕ) :
    ∀ prev l, ∀ c ∈ pair_cmds ppm H feed Mode.biarc nEff maxDepth prev l,
      c.code = "G1" ∨ c.code = "G03" := by
  intro prev l
  induction l generalizing prev with
  | nil => intro c hc; simp [pair_cmds] at hc
  | cons sp rest ih =>
    intro c hc
    simp only [pair_cmds] at hc
    rcases List.mem_append.mp hc with h1 | h1
    · exact segment_cmds_biarc_code ppm H feed nEff maxDepth prev sp c h1
    · exact ih sp c h1

/-- A subpath in biarc mode emits no G02 command. -/
lemma subpath_cmds_no_g02 (ppm H feed : ℚ) (nEff maxDepth : ℕ)
    (l : List Sp) :
    ∀ c ∈ subpath_cmds ppm H feed Mode.biarc nEff maxDepth l,
      c.code ≠ "G02" := by
  intro c hc
  cases l with
  | nil => simp [subpath_cmds] at hc
  | cons sp0 rest =>
    simp only [subpath_cmds] at hc
    by_cases hr : rest.isEmpty
    · rw [if_pos hr] at hc
      simp at hc
    · rw [if_neg hr] at hc
      rcases List.mem_cons.mp hc with rfl | hc
      · exact (by decide : ("G0" : String) ≠ "G02")
      rcases List.mem_cons.mp hc with rfl | hc
      · exact (by decide : ("M03" : String) ≠ "G02")
      rcases List.mem_append.mp hc with hc | hc
      · rcases pair_cmds_biarc_code ppm H feed nEff maxDepth sp0 rest c hc
          with h1 | h1 <;>
        · rw [h1]; decide
      · rw [List.mem_singleton.mp hc]
        decide

/-- The full emitter in biarc mode never produces a G02 command. -/
lemma path_to_gcode_no_g02 (ppm H : ℚ) (polySegs : ℤ) (maxDepth : ℕ)
    (feed : ℚ) (csp : List (List Sp)) :
    ∀ c ∈ path_to_gcode ppm H Mode.biarc polySegs maxDepth feed csp,
      c.code ≠ "G02" := by
  intro c hc
  simp only [path_to_gcode, List.mem_flatten, List.mem_map] at hc
  obtain ⟨l, ⟨sub, hsub, rfl⟩, hcl⟩ := hc
  exact subpath_cmds_no_g02 ppm H feed _ maxDepth sub c hcl

/-- C10: every primitive returned by a successful biarc fit is an arc
with signed angle exactly 0 whose stored center is the midpoint of its
own start and end points; consequently the emitter's `angle < 0` test
never selects G02 for a fitted arc, and biarc mode never emits a
clockwise (G02) arc command — every emitted arc command is G03. -/
theorem c10_no_clockwise_arcs (sp1 sp2 : Sp) (r : List Prim)
    (hfit : fit_biarc sp1 sp2 = some r) (ppm H feed : ℚ) (polySegs : ℤ)
    (maxDepth : ℕ) (csp : List (List Sp)) :
    (∀ p ∈ r, ∃ a b, p = Prim.arc a b ⟨(a.x + b.x) / 2, (a.y + b.y) / 2⟩ 0) ∧
    (∀ c ∈ path_to_gcode ppm H Mode.biarc polySegs maxDepth feed csp,
      c.code ≠ "G02") :=
  ⟨fit_biarc_arcs sp1 sp2 r hfit,
   path_to_gcode_no_g02 ppm H polySegs maxDepth feed csp⟩

/-- Witness for C10 at a concrete fit and a concrete biarc-mode run. -/
theorem c10_no_clockwise_arcs_witness :
    fit_biarc ⟨⟨0,0⟩,⟨0,0⟩,⟨0,2⟩⟩ ⟨⟨2,2⟩,⟨4,0⟩,⟨0,0⟩⟩ =
      some [Prim.arc ⟨0,0⟩ ⟨2,0⟩ ⟨1,0⟩ 0, Prim.arc ⟨2,0⟩ ⟨4,0⟩ ⟨3,0⟩ 0] ∧
    ((∀ p ∈ [Prim.arc (⟨0,0⟩ : Pt) ⟨2,0⟩ ⟨1,0⟩ 0, Prim.arc ⟨2,0⟩ ⟨4,0⟩ ⟨3,0⟩ 0],
        ∃ a b, p = Prim.arc a b ⟨(a.x + b.x) / 2, (a.y + b.y) / 2⟩ 0) ∧
     (∀ c ∈ path_to_gcode 1 0 Mode.biarc 24 4 30
         [[⟨⟨0,0⟩,⟨0,0⟩,⟨0,2⟩⟩, ⟨⟨2,2⟩,⟨4,0⟩,⟨0,0⟩⟩]],
        c.code ≠ "G02")) :=
  ⟨by norm_num [fit_biarc, magSq, crossP],
   c10_no_clockwise_arcs ⟨⟨0,0⟩,⟨0,0⟩,⟨0,2⟩⟩ ⟨⟨2,2⟩,⟨4,0⟩,⟨0,0⟩⟩ _
     (by norm_num [fit_biarc, magSq, crossP]) 1 0 30 24 4
     [[⟨⟨0,0⟩,⟨0,0⟩,⟨0,2⟩⟩, ⟨⟨2,2⟩,⟨4,0⟩,⟨0,0⟩⟩]]⟩

end LaserEng
